import Mathlib

/- Verification development for src/estimate_data_volume.cc.

   The tool opens a batch of HDF5 files listed in a text file, visits the
   object graph of each file, and writes one CSV row of allocation counters
   and accumulated file size per file (plus one baseline row and a header).

   The HDF5 library is external; it is modelled as an oracle carried in a
   World structure: an open table (path to optional file data), an
   allocation-counter stream, a per-file visitation status, and the cache
   parameters a freshly created file-access property list carries.  C
   unsigned 64-bit sizes are modelled as Nat (no overflow-relevant
   arithmetic occurs); hid_t handles as Int (negative means invalid, as in
   HDF5); the C double w0 is only stored and round-tripped, never computed
   with, so it is modelled as Rat. -/

namespace EstimateDataVolume

/-- Allocation counters returned by H5get_alloc_stats (read-only for the tool). -/
structure H5_alloc_stats_t where
  total_alloc_bytes : Nat
  curr_alloc_bytes : Nat
  peak_alloc_bytes : Nat
  deriving DecidableEq

/-- Object kinds distinguished by H5Ovisit callbacks. -/
inductive H5OType where
  | group
  | dataset
  | namedDatatype
  | other
  deriving DecidableEq

/-- One object visited during H5Ovisit traversal: its name, kind and, for a
dataset, its dataspace dimension sizes. -/
structure H5Object where
  name : String
  otype : H5OType
  dims : List Nat
  deriving DecidableEq

/-- Contents of one openable HDF5 file as seen through the library: its byte
size and the objects H5Ovisit reports, in native iteration order. -/
structure FileData where
  size : Nat
  objects : List H5Object
  deriving DecidableEq

/-- Handle events: file, dataset and dataspace handle creation and release. -/
inductive Event where
  | fopen : Int → Event
  | dopen : Int → Event
  | sopen : Int → Event
  | sclose : Int → Event
  | dclose : Int → Event
  | fclose : Int → Event
  deriving DecidableEq

/-- Whether an event is a file-handle close. -/
def Event.isFclose : Event → Bool
  | Event.fclose _ => true
  | _ => false

/-- The op_data_t struct of the source: a vector of retained dataset handles.
The source never appends to it. -/
structure OpData where
  dset_ids : List Int
  deriving DecidableEq

/-- Result of one op_func invocation: the (unchanged) op_data, the handle
events performed, the returned herr_t status, and the next fresh handle id. -/
structure OpResult where
  op_data : OpData
  events : List Event
  status : Int
  ctr : Int
  deriving DecidableEq

/-- Result of one H5Ovisit traversal over a list of objects. -/
structure VisitResult where
  op_data : OpData
  events : List Event
  ctr : Int
  deriving DecidableEq

/-- Raw-data chunk cache parameters of a file-access property list, as read
and written by H5Pget_cache and H5Pset_cache. -/
structure CacheParams where
  mdc_nelmts : Int
  rdcc_nslots : Nat
  rdcc_nbytes : Nat
  w0 : Rat
  deriving DecidableEq

/-- A file-access property list (fapl). isDefault marks the literal
H5P_DEFAULT; in_memory records that H5Pset_fapl_core was applied;
coll_metadata records a H5Pset_all_coll_metadata_ops setting. -/
structure Fapl where
  isDefault : Bool
  in_memory : Bool
  coll_metadata : Option Bool
  cache : CacheParams
  deriving DecidableEq

/-- The four configuration locals of main (lines 110-113 of the source).
They are compile-time literals; no command-line input flows into them. -/
structure Config where
  posix_open : Bool
  in_memory_io : Bool
  chunk_caching : Bool
  raw_chunk_cache_size : Nat
  deriving DecidableEq

/-- The literal configuration of main: posix_open = true, in_memory_io =
true, chunk_caching = true, raw_chunk_cache_size = 64*1024*1024. -/
def mainConfig : Config :=
  { posix_open := true
  , in_memory_io := true
  , chunk_caching := true
  , raw_chunk_cache_size := 64*1024*1024 }

/-- Oracle for everything external to the tool.  infile is the line list of
the input file (none when the input list cannot be opened: a failed
std::ifstream makes getline fail at once, so the read loop yields no lines
and sets no observable error).  fs is the open table: none means H5Fopen
fails for that path.  alloc is the stream of allocation snapshots, indexed
by H5get_alloc_stats call count.  visitStatus is the status H5Ovisit
returns for a file.  garbage is the value found in the uninitialized
dset_dims[0] stack slot when a dataset has rank zero.  defaults are the
cache parameters a fresh fapl carries.  The three trailing statuses are
what the library returns for the checked property-list calls of the
configuration phase: H5Pset_fapl_core (source line 121), H5Pget_cache
(line 47) and H5Pset_cache (line 58); a negative value models a library
reported failure of that call (a failed H5Pcreate, unchecked at line 119,
would surface as a failing H5Pset_fapl_core and is covered by its status). -/
structure World where
  infile : Option (List String)
  fs : String → Option FileData
  alloc : Nat → H5_alloc_stats_t
  visitStatus : String → Int
  garbage : Nat
  defaults : CacheParams
  pset_fapl_core_status : Int
  pget_cache_status : Int
  pset_cache_status : Int

/-- The configuration phase succeeds: the library reports no failure for
any of the three checked property-list calls. -/
abbrev ConfigOk (w : World) : Prop :=
  0 ≤ w.pset_fapl_core_status ∧ 0 ≤ w.pget_cache_status ∧ 0 ≤ w.pset_cache_status

/-- Lines read from the input list (empty when the stream failed to open). -/
def linesOf (w : World) : List String :=
  match w.infile with
  | some ls => ls
  | none => []

/-- File byte size the library reports for a path (0 when the open fails;
only used to state specifications, never by the embedded code). -/
def fileSize (w : World) (p : String) : Nat :=
  match w.fs p with
  | some fd => fd.size
  | none => 0

/-- H5Pcreate(H5P_FILE_ACCESS): a fresh property list carrying the library
default cache parameters. -/
def H5Pcreate_file_access (defaults : CacheParams) : Fapl :=
  { isDefault := false, in_memory := false, coll_metadata := none, cache := defaults }

/-- The literal H5P_DEFAULT property list. -/
def H5P_DEFAULT_fapl (defaults : CacheParams) : Fapl :=
  { isDefault := true, in_memory := false, coll_metadata := none, cache := defaults }

/-- H5Pset_fapl_core(fapl, 0, 0): selects the in-memory (core) driver; the
trailing argument is the status the library reports for the call. -/
def H5Pset_fapl_core (f : Fapl) (err : Int) : Fapl × Int :=
  ({ f with in_memory := true }, err)

/-- H5Pget_cache: returns the cache parameters currently in the list; the
trailing argument is the status the library reports for the call. -/
def H5Pget_cache (f : Fapl) (err : Int) : CacheParams × Int :=
  (f.cache, err)

/-- H5Pset_cache: stores the given cache parameters in the list; the
trailing argument is the status the library reports for the call. -/
def H5Pset_cache (f : Fapl) (c : CacheParams) (err : Int) : Fapl × Int :=
  ({ f with cache := c }, err)

/-- H5Pset_all_coll_metadata_ops(fapl, b).  Only called on the non-POSIX
branch, which is unreachable under the literal configuration of main, so
its status is modelled as success. -/
def H5Pset_all_coll_metadata_ops (f : Fapl) (b : Bool) : Fapl × Int :=
  ({ f with coll_metadata := some b }, 0)

/-- Embedding of set_rawdata_cache (source lines 38-62).  In the C source
the parameters rdcc_nslots, rdcc_nbytes and w0 are passed by address to
H5Pget_cache, which overwrites all of them with the values currently in the
property list before H5Pset_cache resubmits them; the let bindings below
shadow the parameters accordingly, so the requested values are dead.  A
negative status from H5Pget_cache (checked at line 48) or H5Pset_cache
(line 59) triggers _HANDLE_ERROR, which prints Error: and the call name to
standard output and exits 1, modelled as Except.error carrying the console
line and the exit code; otherwise the function returns err_exit = 0.  The
two trailing arguments are the statuses the library reports for the two
calls. -/
def set_rawdata_cache (fapl : Fapl) (rdcc_nslots : Nat) (rdcc_nbytes : Nat) (w0 : Rat)
    (get_status : Int) (set_status : Int) : Except (List String × Nat) (Fapl × Int) :=
  let err_exit : Int := 0
  let got := H5Pget_cache fapl get_status
  let err := got.2
  if err < 0 then Except.error (["Error: H5Pget_cache"], 1)
  else
    let mdc_nelmts : Int := got.1.mdc_nelmts
    let rdcc_nslots : Nat := got.1.rdcc_nslots
    let rdcc_nbytes : Nat := got.1.rdcc_nbytes
    let w0 : Rat := got.1.w0
    let set := H5Pset_cache fapl
      { mdc_nelmts := mdc_nelmts, rdcc_nslots := rdcc_nslots
      , rdcc_nbytes := rdcc_nbytes, w0 := w0 } set_status
    let err := set.2
    if err < 0 then Except.error (["Error: H5Pset_cache"], 1)
    else Except.ok (set.1, err_exit)

/-- The fapl construction of main (source lines 110-140), parameterized by
the configuration literals, the defaults a fresh fapl carries, and the
statuses of the three checked property-list calls.  A negative status from
H5Pset_fapl_core (checked at line 122) aborts via _HANDLE_ERROR, as does a
negative return of set_rawdata_cache (line 126; dead, since that function
returns 0 whenever it does not itself abort).  H5Pcreate is modelled as
succeeding: the in-memory branch does not check it (line 119), and the
non-POSIX branch that does (line 136) is unreachable under mainConfig. -/
def buildFapl (cfg : Config) (defaults : CacheParams)
    (core_status get_status set_status : Int) : Except (List String × Nat) Fapl :=
  if cfg.posix_open then
    if cfg.in_memory_io then
      let fapl := H5Pcreate_file_access defaults
      let r := H5Pset_fapl_core fapl core_status
      if r.2 < 0 then Except.error (["Error: H5Pset_fapl_core"], 1)
      else
        let fapl := r.1
        if cfg.chunk_caching then
          match set_rawdata_cache fapl 521 cfg.raw_chunk_cache_size 1
              get_status set_status with
          | Except.error e => Except.error e
          | Except.ok s =>
            if s.2 < 0 then Except.error (["Error: set_rawdata_cache"], 1)
            else Except.ok s.1
        else Except.ok fapl
    else Except.ok (H5P_DEFAULT_fapl defaults)
  else
    let fapl := H5Pcreate_file_access defaults
    let r := H5Pset_all_coll_metadata_ops fapl false
    if r.2 < 0 then Except.error (["Error: H5Pset_all_coll_metadata_ops"], 1)
    else Except.ok r.1

/-- Embedding of op_func (source lines 68-87).  For a dataset the callback
opens the dataset (handle ctr) and its dataspace (handle ctr + 1), reads
the dimensions into a 2-element stack array, closes the dataspace, and
closes the dataset exactly when dset_dims[0] <= 0; hsize_t is unsigned so
the test holds exactly at 0.  For rank-0 datasets the source reads the
uninitialized dset_dims[0], modelled as garbage.  The callback never
touches op_data and always returns 0. -/
def op_func (o : H5Object) (op_data : OpData) (ctr : Int) (garbage : Nat) : OpResult :=
  if o.otype = H5OType.dataset then
    let dset_id := ctr
    let space_id := ctr + 1
    let dims0 := o.dims.headD garbage
    if dims0 ≤ 0 then
      { op_data := op_data
      , events := [Event.dopen dset_id, Event.sopen space_id, Event.sclose space_id,
          Event.dclose dset_id]
      , status := 0, ctr := ctr + 2 }
    else
      { op_data := op_data
      , events := [Event.dopen dset_id, Event.sopen space_id, Event.sclose space_id]
      , status := 0, ctr := ctr + 2 }
  else
    { op_data := op_data, events := [], status := 0, ctr := ctr }

/-- H5Ovisit traversal: op_func applied to every reported object in order,
threading op_data and the fresh-handle counter. -/
def visitObjects (garbage : Nat) (op_data : OpData) (ctr : Int) :
    List H5Object → VisitResult
  | [] => { op_data := op_data, events := [], ctr := ctr }
  | o :: os =>
    let r := op_func o op_data ctr garbage
    let rest := visitObjects garbage r.op_data r.ctr os
    { op_data := rest.op_data, events := r.events ++ rest.events, ctr := rest.ctr }

/-- The report function (source lines 18-24): one CSV line of the three
allocation counters and the accumulated file size, raw integers separated
by commas, terminated by a line break. -/
def report (alloc : H5_alloc_stats_t) (acc_file_size : Nat) : String :=
  toString alloc.total_alloc_bytes ++ "," ++ toString alloc.curr_alloc_bytes ++ ","
    ++ toString alloc.peak_alloc_bytes ++ "," ++ toString acc_file_size ++ "\n"

/-- The header line (source lines 26-29). -/
def header : String :=
  "total_alloc_bytes,curr_alloc_bytes,peak_alloc_bytes,acc_file_size\n"

/-- The usage message printed when argc differs from 3 (source lines 92-95). -/
def usageLine : String :=
  "Usage: estimate_data_volume /path/to/file_list.txt /path/to/output.csv"

/-- Lexicographic strict order on character lists, the order std::map uses
on std::string keys (written out so that it evaluates by computation). -/
def charListLt : List Char → List Char → Bool
  | [], [] => false
  | [], _ :: _ => true
  | _ :: _, [] => false
  | a :: as, b :: bs =>
    if a < b then true
    else if b < a then false
    else charListLt as bs

/-- Lexicographic strict order on strings. -/
def strLt (s t : String) : Bool :=
  charListLt s.data t.data

/-- Insertion into the std::map<std::string, hid_t> file_ids: keys are kept
in strictly increasing lexicographic order, assignment to an existing key
overwrites. -/
def mapInsert : List (String × Int) → String → Int → List (String × Int)
  | [], k, v => [(k, v)]
  | (k0, v0) :: rest, k, v =>
    if k = k0 then (k0, v) :: rest
    else if strLt k k0 then (k, v) :: (k0, v0) :: rest
    else (k0, v0) :: mapInsert rest k v

/-- Mutable state of the scan loop of main (source lines 147-158), plus the
observable traces: rows passed to report, the accumulated-size value at
each emission, the lines written to the output stream so far, the handle
events of the scan phase, and the H5get_alloc_stats call count. -/
structure ScanState where
  curr_file_size : Nat
  acc_file_size : Nat
  rowsMeta : List (H5_alloc_stats_t × Nat)
  accTrace : List Nat
  outLines : List String
  file_ids : List (String × Int)
  allocCalls : Nat
  ctr : Int
  scanEvents : List Event
  op_data : OpData

/-- One iteration of the scan loop.  On a successful open the file handle is
fresh and positive, the size query succeeds, and H5Ovisit traverses the
objects.  On a failed open H5Fopen returns a negative id; the source checks
nothing: H5Fget_filesize fails leaving curr_file_size unchanged, the stale
value is still added to acc_file_size, H5Ovisit fails immediately on the
invalid id (status ignored), and the row is still emitted and the negative
id still stored in the map. -/
def scanStep (w : World) (st : ScanState) (p : String) : ScanState :=
  match w.fs p with
  | some fd =>
    let file_id := st.ctr
    let curr_file_size := fd.size
    let acc_file_size := st.acc_file_size + curr_file_size
    let v := visitObjects w.garbage st.op_data (st.ctr + 1) fd.objects
    let err := w.visitStatus p
    let a := w.alloc st.allocCalls
    { curr_file_size := curr_file_size
    , acc_file_size := acc_file_size
    , rowsMeta := st.rowsMeta ++ [(a, acc_file_size)]
    , accTrace := st.accTrace ++ [acc_file_size]
    , outLines := st.outLines ++ [report a acc_file_size]
    , file_ids := mapInsert st.file_ids p file_id
    , allocCalls := st.allocCalls + 1
    , ctr := v.ctr
    , scanEvents := st.scanEvents ++ Event.fopen file_id :: v.events
    , op_data := v.op_data }
  | none =>
    let err : Int := -1
    let acc_file_size := st.acc_file_size + st.curr_file_size
    let a := w.alloc st.allocCalls
    { st with
      acc_file_size := acc_file_size
    , rowsMeta := st.rowsMeta ++ [(a, acc_file_size)]
    , accTrace := st.accTrace ++ [acc_file_size]
    , outLines := st.outLines ++ [report a acc_file_size]
    , file_ids := mapInsert st.file_ids p (-1)
    , allocCalls := st.allocCalls + 1 }

/-- The scan loop over the whole input list. -/
def scanLoop (w : World) (st : ScanState) : List String → ScanState
  | [] => st
  | p :: ps => scanLoop w (scanStep w st p) ps

/-- The close loop of main (source lines 160-163): iterate the map, close
each handle; a failing close (negative handle) triggers _HANDLE_ERROR,
which prints to std::cout and calls exit(1), so later handles stay open.
Returns the successful fclose events, the console lines, and the exit code. -/
def closeLoop : List (String × Int) → List Event × List String × Nat
  | [] => ([], [], 0)
  | kv :: rest =>
    if kv.2 < 0 then ([], ["Error: H5Fclose"], 1)
    else
      let r := closeLoop rest
      (Event.fclose kv.2 :: r.1, r.2.1, r.2.2)

/-- The state after the header write, line reading, fapl construction and
the baseline snapshot and report (source lines 97-143). -/
def initState (w : World) : ScanState :=
  let a0 := w.alloc 0
  { curr_file_size := 0
  , acc_file_size := 0
  , rowsMeta := [(a0, 0)]
  , accTrace := [0]
  , outLines := [header, report a0 0]
  , file_ids := []
  , allocCalls := 1
  , ctr := 1
  , scanEvents := []
  , op_data := { dset_ids := [] } }

/-- Observable outcome of one program run: console (std::cout) lines, the
lines written to the output CSV stream, the structured emissions, the
accumulated-size trace, the final handle map, the close-phase and
scan-phase handle events, the final op_data, the fapl in use, and the
process exit status. -/
structure RunResult where
  console : List String
  outLines : List String
  rowsMeta : List (H5_alloc_stats_t × Nat)
  accTrace : List Nat
  file_ids : List (String × Int)
  closeEvents : List Event
  scanEvents : List Event
  op_data : OpData
  fapl : Option Fapl
  exitCode : Nat
  deriving DecidableEq

/-- The measurement phase of main (source lines 142-166), reached only when
the configuration phase succeeded: the baseline snapshot and report, the
scan loop, and the close loop. -/
def scanPhase (w : World) (fapl : Fapl) : RunResult :=
  let st := scanLoop w (initState w) (linesOf w)
  let cl := closeLoop st.file_ids
  { console := cl.2.1
  , outLines := st.outLines
  , rowsMeta := st.rowsMeta
  , accTrace := st.accTrace
  , file_ids := st.file_ids
  , closeEvents := cl.1
  , scanEvents := st.scanEvents
  , op_data := st.op_data
  , fapl := some fapl
  , exitCode := cl.2.2 }

/-- The run outcome when _HANDLE_ERROR aborts during the configuration
phase: the header was already written (source line 99), nothing else
happened, the diagnostic went to standard output and the process exited 1. -/
def abortRun (msg : String) : RunResult :=
  { console := [msg], outLines := [header], rowsMeta := [], accTrace := []
  , file_ids := [], closeEvents := [], scanEvents := []
  , op_data := { dset_ids := [] }, fapl := none, exitCode := 1 }

/-- Embedding of main (source lines 90-167).  argc counts the program name
plus arguments, as in C. -/
def mainRun (w : World) (argc : Nat) : RunResult :=
  if argc ≠ 3 then
    { console := [usageLine], outLines := [], rowsMeta := [], accTrace := []
    , file_ids := [], closeEvents := [], scanEvents := []
    , op_data := { dset_ids := [] }, fapl := none, exitCode := 1 }
  else
    match buildFapl mainConfig w.defaults w.pset_fapl_core_status
        w.pget_cache_status w.pset_cache_status with
    | Except.error e =>
      { console := e.1, outLines := [header], rowsMeta := [], accTrace := []
      , file_ids := [], closeEvents := [], scanEvents := []
      , op_data := { dset_ids := [] }, fapl := none, exitCode := e.2 }
    | Except.ok fapl => scanPhase w fapl

/-- Accumulated-size values the spec expects after each file, starting from
a given accumulator: exact running sums of the library-reported sizes. -/
def accList (w : World) : Nat → List String → List Nat
  | _, [] => []
  | a, p :: ps => (a + fileSize w p) :: accList w (a + fileSize w p) ps

/-- The spec-expected emission trace: the baseline value followed by the
running sums. -/
def expectedTrace (w : World) (a : Nat) (ps : List String) : List Nat :=
  a :: accList w a ps

/-- Sum of the byte sizes of the paths whose open succeeds. -/
def openedSum (w : World) (ps : List String) : Nat :=
  ((ps.filter (fun p => (w.fs p).isSome)).map (fileSize w)).sum

/-- Number of input paths whose open succeeds. -/
def scannedCount (w : World) : Nat :=
  ((linesOf w).filter (fun p => (w.fs p).isSome)).length

/-- Strictly sorted keys, the std::map representation invariant. -/
def SortedKeys (m : List (String × Int)) : Prop :=
  List.Pairwise (fun a b : String × Int => strLt a.1 b.1 = true) m

/-- The HDF5 library default cache parameters: 521 slots, 1 MiB, w0 = 0.75. -/
def hdf5DefaultCache : CacheParams :=
  { mdc_nelmts := 0, rdcc_nslots := 521, rdcc_nbytes := 1048576, w0 := (3 : Rat) / 4 }

/-- A world whose input list holds one path that cannot be opened. -/
def wC2 : World :=
  { infile := some ["missing.h5"]
  , fs := fun _ => none
  , alloc := fun k => { total_alloc_bytes := k, curr_alloc_bytes := k, peak_alloc_bytes := k }
  , visitStatus := fun _ => 0
  , garbage := 0
  , defaults := hdf5DefaultCache
  , pset_fapl_core_status := 0
  , pget_cache_status := 0
  , pset_cache_status := 0 }

/-- A world where the first file opens (1000 bytes) and the second open
fails: the stale curr_file_size of 1000 is re-added at the second row. -/
def wC3cx : World :=
  { infile := some ["a", "b"]
  , fs := fun p => if p = "a" then some { size := 1000, objects := [] } else none
  , alloc := fun k => { total_alloc_bytes := k, curr_alloc_bytes := k, peak_alloc_bytes := k }
  , visitStatus := fun _ => 0
  , garbage := 0
  , defaults := hdf5DefaultCache
  , pset_fapl_core_status := 0
  , pget_cache_status := 0
  , pset_cache_status := 0 }

/-- A world where the open of "a" fails and the open of "b" succeeds: the
sorted map then starts with the invalid handle, so the close phase exits
before reaching the handle of "b". -/
def wC7 : World :=
  { infile := some ["a", "b"]
  , fs := fun p => if p = "b" then some { size := 5, objects := [] } else none
  , alloc := fun k => { total_alloc_bytes := k, curr_alloc_bytes := k, peak_alloc_bytes := k }
  , visitStatus := fun _ => 0
  , garbage := 0
  , defaults := hdf5DefaultCache
  , pset_fapl_core_status := 0
  , pget_cache_status := 0
  , pset_cache_status := 0 }

/-- A world whose input list cannot be opened at all. -/
def wBadList : World :=
  { infile := none
  , fs := fun _ => some { size := 7, objects := [] }
  , alloc := fun k => { total_alloc_bytes := k, curr_alloc_bytes := k, peak_alloc_bytes := k }
  , visitStatus := fun _ => 0
  , garbage := 0
  , defaults := hdf5DefaultCache
  , pset_fapl_core_status := 0
  , pget_cache_status := 0
  , pset_cache_status := 0 }

/-- A world with an empty input list. -/
def wEmptyList : World :=
  { infile := some []
  , fs := fun _ => none
  , alloc := fun k => { total_alloc_bytes := k, curr_alloc_bytes := k, peak_alloc_bytes := k }
  , visitStatus := fun _ => 0
  , garbage := 0
  , defaults := hdf5DefaultCache
  , pset_fapl_core_status := 0
  , pget_cache_status := 0
  , pset_cache_status := 0 }

/-- A fully successful world: two files of 1000 and 2500 bytes (the scenario
of the spec), the first containing a group, an empty dataset and a
non-empty dataset. -/
def wGood : World :=
  { infile := some ["f1", "f2"]
  , fs := fun p =>
      if p = "f1" then
        some { size := 1000
             , objects :=
                [ { name := "g", otype := H5OType.group, dims := [] }
                , { name := "d0", otype := H5OType.dataset, dims := [0, 3] }
                , { name := "d1", otype := H5OType.dataset, dims := [5] } ] }
      else if p = "f2" then some { size := 2500, objects := [] }
      else none
  , alloc := fun k => { total_alloc_bytes := k, curr_alloc_bytes := k, peak_alloc_bytes := k }
  , visitStatus := fun _ => 0
  , garbage := 0
  , defaults := hdf5DefaultCache
  , pset_fapl_core_status := 0
  , pget_cache_status := 0
  , pset_cache_status := 0 }

/-- A world where the library reports failure for H5Pset_fapl_core: the
configuration phase aborts through the error macro. -/
def wCfgFail : World :=
  { infile := some []
  , fs := fun _ => none
  , alloc := fun k => { total_alloc_bytes := k, curr_alloc_bytes := k, peak_alloc_bytes := k }
  , visitStatus := fun _ => 0
  , garbage := 0
  , defaults := hdf5DefaultCache
  , pset_fapl_core_status := -1
  , pget_cache_status := 0
  , pset_cache_status := 0 }

/-- The close loop either reports nothing and returns 0 or prints exactly
the H5Fclose diagnostic and returns 1. -/
theorem closeLoop_console (m : List (String × Int)) :
    ((closeLoop m).2.1 = [] ∧ (closeLoop m).2.2 = 0) ∨
    ((closeLoop m).2.1 = ["Error: H5Fclose"] ∧ (closeLoop m).2.2 = 1) := by
  induction m with
  | nil => exact Or.inl ⟨rfl, rfl⟩
  | cons kv rest ih =>
    by_cases h : kv.2 < 0
    · right
      simp [closeLoop, h]
    · simpa [closeLoop, h] using ih

/-- When every retained handle is valid, the close loop closes each of them
in map order, prints nothing and returns 0. -/
theorem closeLoop_all_valid (m : List (String × Int)) (h : ∀ kv ∈ m, 0 ≤ kv.2) :
    closeLoop m = (m.map (fun kv => Event.fclose kv.2), [], 0) := by
  induction m with
  | nil => rfl
  | cons kv rest ih =>
    have h1 : ¬ kv.2 < 0 := not_lt.mpr (h kv (by simp))
    have h2 : ∀ x ∈ rest, 0 ≤ x.2 := fun x hx => h x (List.mem_cons_of_mem _ hx)
    simp [closeLoop, h1, ih h2]

/-- The character-list order is irreflexive. -/
theorem charListLt_irrefl (l : List Char) : charListLt l l = false := by
  induction l with
  | nil => rfl
  | cons a as ih => simp [charListLt, ih]

/-- The character-list order is transitive. -/
theorem charListLt_trans : ∀ (as bs cs : List Char), charListLt as bs = true →
    charListLt bs cs = true → charListLt as cs = true := by
  intro as
  induction as with
  | nil =>
    intro bs cs h1 h2
    cases bs with
    | nil => simp [charListLt] at h1
    | cons b bs' =>
      cases cs with
      | nil => simp [charListLt] at h2
      | cons c cs' => simp [charListLt]
  | cons a as' ih =>
    intro bs cs h1 h2
    cases bs with
    | nil => simp [charListLt] at h1
    | cons b bs' =>
      cases cs with
      | nil => simp [charListLt] at h2
      | cons c cs' =>
        simp only [charListLt] at h1 h2 ⊢
        by_cases hab : a < b
        · by_cases hbc : b < c
          · rw [if_pos (lt_trans hab hbc)]
          · by_cases hcb : c < b
            · rw [if_neg hbc, if_pos hcb] at h2
              exact absurd h2 (by simp)
            · have hbc2 : b = c := le_antisymm (not_lt.mp hcb) (not_lt.mp hbc)
              rw [if_pos (lt_of_lt_of_eq hab hbc2)]
        · by_cases hba : b < a
          · rw [if_neg hab, if_pos hba] at h1
            exact absurd h1 (by simp)
          · have hab2 : a = b := le_antisymm (not_lt.mp hba) (not_lt.mp hab)
            rw [if_neg hab, if_neg hba] at h1
            by_cases hbc : b < c
            · rw [if_pos (lt_of_eq_of_lt hab2 hbc)]
            · by_cases hcb : c < b
              · rw [if_neg hbc, if_pos hcb] at h2
                exact absurd h2 (by simp)
              · have hbc2 : b = c := le_antisymm (not_lt.mp hcb) (not_lt.mp hbc)
                rw [if_neg hbc, if_neg hcb] at h2
                have hac : a = c := hab2.trans hbc2
                rw [if_neg (show ¬ a < c by rw [hac]; exact lt_irrefl c),
                  if_neg (show ¬ c < a by rw [hac]; exact lt_irrefl c)]
                exact ih bs' cs' h1 h2

/-- Two distinct character lists compare strictly in one direction. -/
theorem charListLt_total : ∀ (as bs : List Char), as ≠ bs →
    charListLt as bs = false → charListLt bs as = true := by
  intro as
  induction as with
  | nil =>
    intro bs hne h
    cases bs with
    | nil => exact absurd rfl hne
    | cons b bs' => simp [charListLt] at h
  | cons a as' ih =>
    intro bs hne h
    cases bs with
    | nil => simp [charListLt]
    | cons b bs' =>
      simp only [charListLt] at h ⊢
      by_cases hab : a < b
      · rw [if_pos hab] at h
        exact absurd h (by simp)
      · by_cases hba : b < a
        · rw [if_pos hba]
        · have heq : a = b := le_antisymm (not_lt.mp hba) (not_lt.mp hab)
          rw [if_neg hab, if_neg hba] at h
          rw [if_neg hba, if_neg hab]
          have hne' : as' ≠ bs' := fun hh => hne (by rw [heq, hh])
          exact ih bs' hne' h

/-- The string order is transitive. -/
theorem strLt_trans {a b c : String} (h1 : strLt a b = true) (h2 : strLt b c = true) :
    strLt a c = true :=
  charListLt_trans a.data b.data c.data h1 h2

/-- The string order is irreflexive. -/
theorem strLt_irrefl (a : String) : strLt a a = false :=
  charListLt_irrefl a.data

/-- Two distinct strings compare strictly in one direction. -/
theorem strLt_total {a b : String} (hne : a ≠ b) (h : strLt a b = false) :
    strLt b a = true := by
  apply charListLt_total a.data b.data _ h
  intro hd
  apply hne
  cases a
  cases b
  simp_all

/-- Strictly smaller strings are distinct. -/
theorem strLt_ne {a b : String} (h : strLt a b = true) : a ≠ b := by
  intro he
  rw [he, strLt_irrefl] at h
  exact absurd h (by simp)

/-- Every entry of the map after an insertion is the inserted pair or an old
entry. -/
theorem mem_mapInsert (m : List (String × Int)) (k : String) (v : Int) :
    ∀ kv ∈ mapInsert m k v, kv = (k, v) ∨ kv ∈ m := by
  induction m with
  | nil =>
    intro kv h
    simp [mapInsert] at h
    exact Or.inl h
  | cons a rest ih =>
    obtain ⟨k0, v0⟩ := a
    intro kv h
    by_cases h1 : k = k0
    · subst h1
      simp [mapInsert] at h
      rcases h with h | h
      · exact Or.inl (by simp [h])
      · exact Or.inr (by simp [h])
    · by_cases h2 : strLt k k0 = true
      · simp [mapInsert, h1, h2] at h
        rcases h with h | h | h
        · exact Or.inl (by simp [h])
        · exact Or.inr (by simp [h])
        · exact Or.inr (by simp [h])
      · simp [mapInsert, h1, h2] at h
        rcases h with h | h
        · exact Or.inr (by simp [h])
        · rcases ih kv h with h3 | h3
          · exact Or.inl h3
          · exact Or.inr (List.mem_cons_of_mem _ h3)

/-- The key set after an insertion is the old key set plus the new key. -/
theorem keys_mapInsert (m : List (String × Int)) (k : String) (v : Int) (x : String) :
    x ∈ (mapInsert m k v).map Prod.fst ↔ x = k ∨ x ∈ m.map Prod.fst := by
  induction m with
  | nil => simp [mapInsert]
  | cons a rest ih =>
    obtain ⟨k0, v0⟩ := a
    by_cases h1 : k = k0
    · subst h1
      simp [mapInsert]
    · by_cases h2 : strLt k k0 = true
      · simp [mapInsert, h1, h2]
      · simp [mapInsert, h1, h2, ih]
        tauto

/-- Insertion preserves the strictly sorted map invariant. -/
theorem sortedKeys_mapInsert (m : List (String × Int)) (k : String) (v : Int)
    (h : SortedKeys m) : SortedKeys (mapInsert m k v) := by
  induction m with
  | nil =>
    rw [SortedKeys]
    simp [mapInsert]
  | cons a rest ih =>
    obtain ⟨k0, v0⟩ := a
    rw [SortedKeys, List.pairwise_cons] at h
    obtain ⟨ha, hrest⟩ := h
    rw [SortedKeys]
    by_cases h1 : k = k0
    · simp only [mapInsert]
      rw [if_pos h1, List.pairwise_cons]
      exact ⟨fun b hb => ha b hb, hrest⟩
    · by_cases h2 : strLt k k0 = true
      · simp only [mapInsert]
        rw [if_neg h1, if_pos h2, List.pairwise_cons]
        constructor
        · intro b hb
          rcases List.mem_cons.mp hb with hb1 | hb1
          · rw [hb1]
            exact h2
          · exact strLt_trans h2 (ha b hb1)
        · rw [List.pairwise_cons]
          exact ⟨ha, hrest⟩
      · have h2f : strLt k k0 = false := by
          revert h2
          cases strLt k k0 <;> simp
        have h3 : strLt k0 k = true := strLt_total h1 h2f
        simp only [mapInsert]
        rw [if_neg h1, if_neg h2, List.pairwise_cons]
        constructor
        · intro b hb
          rcases mem_mapInsert rest k v b hb with hb1 | hb1
          · rw [hb1]
            exact h3
          · exact ha b hb1
        · exact ih hrest

/-- Strictly sorted keys are pairwise distinct. -/
theorem sortedKeys_nodup (m : List (String × Int)) (h : SortedKeys m) :
    (m.map Prod.fst).Nodup := by
  rw [SortedKeys] at h
  rw [List.Nodup, List.pairwise_map]
  exact h.imp (fun hlt => strLt_ne hlt)

/-- The visitor callback never modifies op_data. -/
theorem op_func_op_data (o : H5Object) (d : OpData) (c : Int) (g : Nat) :
    (op_func o d c g).op_data = d := by
  simp only [op_func]
  split
  · split <;> rfl
  · rfl

/-- The visitor callback returns 0 on every input. -/
theorem op_func_status (o : H5Object) (d : OpData) (c : Int) (g : Nat) :
    (op_func o d c g).status = 0 := by
  simp only [op_func]
  split
  · split <;> rfl
  · rfl

/-- The visitor callback never decreases the fresh-handle counter. -/
theorem op_func_ctr_le (o : H5Object) (d : OpData) (c : Int) (g : Nat) :
    c ≤ (op_func o d c g).ctr := by
  simp only [op_func]
  split
  · split
    · show c ≤ c + 2
      omega
    · show c ≤ c + 2
      omega
  · show c ≤ c
    omega

/-- The visitor callback closes no file handle. -/
theorem op_func_events_no_fclose (o : H5Object) (d : OpData) (c : Int) (g : Nat) :
    ∀ e ∈ (op_func o d c g).events, e.isFclose = false := by
  simp only [op_func]
  split
  · split <;>
      · intro e he
        fin_cases he <;> rfl
  · intro e he
    exact absurd he (List.not_mem_nil e)

/-- Traversal never modifies op_data. -/
theorem visitObjects_op_data (g : Nat) (d : OpData) (c : Int) (objs : List H5Object) :
    (visitObjects g d c objs).op_data = d := by
  induction objs generalizing d c with
  | nil => rfl
  | cons o os ih => simp [visitObjects, ih, op_func_op_data]

/-- Traversal never decreases the fresh-handle counter. -/
theorem visitObjects_ctr_le (g : Nat) (d : OpData) (c : Int) (objs : List H5Object) :
    c ≤ (visitObjects g d c objs).ctr := by
  induction objs generalizing d c with
  | nil => simp [visitObjects]
  | cons o os ih =>
    have h1 : c ≤ (op_func o d c g).ctr := op_func_ctr_le o d c g
    have h2 := ih (op_func o d c g).op_data (op_func o d c g).ctr
    show c ≤ (visitObjects g (op_func o d c g).op_data (op_func o d c g).ctr os).ctr
    omega

/-- Traversal closes no file handle. -/
theorem visitObjects_events_no_fclose (g : Nat) (d : OpData) (c : Int)
    (objs : List H5Object) : ∀ e ∈ (visitObjects g d c objs).events, e.isFclose = false := by
  induction objs generalizing d c with
  | nil => simp [visitObjects]
  | cons o os ih =>
    intro e he
    rw [show visitObjects g d c (o :: os) =
        { op_data := (visitObjects g (op_func o d c g).op_data (op_func o d c g).ctr os).op_data
        , events := (op_func o d c g).events ++
            (visitObjects g (op_func o d c g).op_data (op_func o d c g).ctr os).events
        , ctr := (visitObjects g (op_func o d c g).op_data (op_func o d c g).ctr os).ctr }
      from rfl] at he
    rcases List.mem_append.mp he with h | h
    · exact op_func_events_no_fclose o d c g e h
    · exact ih _ _ e h

/-- One scan step appends exactly the new accumulated value to the trace. -/
theorem scanStep_accTrace (w : World) (st : ScanState) (p : String) :
    (scanStep w st p).accTrace = st.accTrace ++ [(scanStep w st p).acc_file_size] := by
  cases hfs : w.fs p <;> simp [scanStep, hfs]

/-- One scan step never decreases the accumulated size. -/
theorem scanStep_acc_ge (w : World) (st : ScanState) (p : String) :
    st.acc_file_size ≤ (scanStep w st p).acc_file_size := by
  cases hfs : w.fs p <;> simp [scanStep, hfs]

/-- One scan step appends exactly one row to the structured trace and one
line to the output stream, built from the same snapshot and value. -/
theorem scanStep_row (w : World) (st : ScanState) (p : String) :
    (scanStep w st p).rowsMeta =
      st.rowsMeta ++ [(w.alloc st.allocCalls, (scanStep w st p).acc_file_size)] ∧
    (scanStep w st p).outLines =
      st.outLines ++ [report (w.alloc st.allocCalls) (scanStep w st p).acc_file_size] := by
  cases hfs : w.fs p <;> simp [scanStep, hfs]

/-- One scan step stores some handle for its path in the map. -/
theorem scanStep_file_ids (w : World) (st : ScanState) (p : String) :
    ∃ v : Int, (scanStep w st p).file_ids = mapInsert st.file_ids p v := by
  cases hfs : w.fs p
  · exact ⟨-1, by simp [scanStep, hfs]⟩
  · exact ⟨st.ctr, by simp [scanStep, hfs]⟩

/-- One scan step never modifies op_data. -/
theorem scanStep_op_data (w : World) (st : ScanState) (p : String) :
    (scanStep w st p).op_data = st.op_data := by
  cases hfs : w.fs p <;> simp [scanStep, hfs, visitObjects_op_data]

/-- One scan step extends the scan events with file-close-free events only. -/
theorem scanStep_scanEvents (w : World) (st : ScanState) (p : String) :
    ∃ ex : List Event, (scanStep w st p).scanEvents = st.scanEvents ++ ex ∧
      ∀ e ∈ ex, e.isFclose = false := by
  cases hfs : w.fs p with
  | none => exact ⟨[], by simp [scanStep, hfs], by simp⟩
  | some fd =>
    refine ⟨Event.fopen st.ctr ::
      (visitObjects w.garbage st.op_data (st.ctr + 1) fd.objects).events,
      by simp [scanStep, hfs], ?_⟩
    intro e he
    rcases List.mem_cons.mp he with h | h
    · rw [h]
      rfl
    · exact visitObjects_events_no_fclose _ _ _ _ e h

/-- The scan loop preserves op_data. -/
theorem scanLoop_op_data (w : World) (ps : List String) (st : ScanState) :
    (scanLoop w st ps).op_data = st.op_data := by
  induction ps generalizing st with
  | nil => rfl
  | cons p ps ih =>
    simp only [scanLoop]
    rw [ih, scanStep_op_data]

/-- The scan loop emits exactly one row per input path. -/
theorem scanLoop_rowsMeta_len (w : World) (ps : List String) (st : ScanState) :
    (scanLoop w st ps).rowsMeta.length = st.rowsMeta.length + ps.length := by
  induction ps generalizing st with
  | nil => simp [scanLoop]
  | cons p ps ih =>
    simp only [scanLoop]
    rw [ih, (scanStep_row w st p).1]
    simp
    omega

/-- The scan loop keeps the output stream equal to the header followed by
the report line of each structured row. -/
theorem scanLoop_outLines (w : World) (ps : List String) (st : ScanState)
    (h : st.outLines = header :: st.rowsMeta.map (fun r => report r.1 r.2)) :
    (scanLoop w st ps).outLines =
      header :: (scanLoop w st ps).rowsMeta.map (fun r => report r.1 r.2) := by
  induction ps generalizing st with
  | nil => exact h
  | cons p ps ih =>
    simp only [scanLoop]
    apply ih
    rw [(scanStep_row w st p).1, (scanStep_row w st p).2, h]
    simp

/-- Appending a larger element to a non-decreasing list whose last element
is known keeps it non-decreasing. -/
theorem chain_le_append_one (l : List Nat) (a b : Nat)
    (hl : List.Chain' (fun x y : Nat => x ≤ y) l) (hlast : l.getLast? = some a)
    (hab : a ≤ b) : List.Chain' (fun x y : Nat => x ≤ y) (l ++ [b]) := by
  rw [List.chain'_append]
  refine ⟨hl, List.chain'_singleton b, ?_⟩
  intro x hx y hy
  rw [hlast] at hx
  simp at hx hy
  omega

/-- The accumulated-size trace never decreases across the scan loop. -/
theorem scanLoop_accTrace_chain (w : World) (ps : List String) (st : ScanState)
    (h1 : st.accTrace.getLast? = some st.acc_file_size)
    (h2 : List.Chain' (fun x y : Nat => x ≤ y) st.accTrace) :
    List.Chain' (fun x y : Nat => x ≤ y) (scanLoop w st ps).accTrace := by
  induction ps generalizing st with
  | nil => exact h2
  | cons p ps ih =>
    simp only [scanLoop]
    apply ih
    · rw [scanStep_accTrace, List.getLast?_concat]
    · rw [scanStep_accTrace]
      exact chain_le_append_one _ _ _ h2 h1 (scanStep_acc_ge w st p)

/-- When every open succeeds, the scan loop extends the trace by the exact
running sums of the reported file sizes. -/
theorem scanLoop_accTrace_exact (w : World) (ps : List String) (st : ScanState)
    (hok : ∀ p ∈ ps, (w.fs p).isSome = true) :
    (scanLoop w st ps).accTrace = st.accTrace ++ accList w st.acc_file_size ps := by
  induction ps generalizing st with
  | nil => simp [scanLoop, accList]
  | cons p ps ih =>
    simp only [scanLoop]
    obtain ⟨fd, hfd⟩ := Option.isSome_iff_exists.mp (hok p (List.mem_cons_self p ps))
    have hstep : (scanStep w st p).accTrace = st.accTrace ++ [st.acc_file_size + fd.size] ∧
        (scanStep w st p).acc_file_size = st.acc_file_size + fd.size := by
      constructor <;> simp [scanStep, hfd]
    rw [ih _ (fun q hq => hok q (List.mem_cons_of_mem _ hq)), hstep.1, hstep.2]
    rw [show accList w st.acc_file_size (p :: ps) =
      (st.acc_file_size + fileSize w p) ::
        accList w (st.acc_file_size + fileSize w p) ps from rfl]
    rw [show fileSize w p = fd.size from by simp [fileSize, hfd]]
    simp

/-- The scan loop keeps the map keys strictly sorted. -/
theorem scanLoop_sortedKeys (w : World) (ps : List String) (st : ScanState)
    (h : SortedKeys st.file_ids) : SortedKeys (scanLoop w st ps).file_ids := by
  induction ps generalizing st with
  | nil => exact h
  | cons p ps ih =>
    simp only [scanLoop]
    apply ih
    obtain ⟨v, hv⟩ := scanStep_file_ids w st p
    rw [hv]
    exact sortedKeys_mapInsert _ _ _ h

/-- The key set of the map after the scan loop is the old key set plus the
processed paths. -/
theorem scanLoop_keys (w : World) (ps : List String) (st : ScanState) (x : String) :
    x ∈ (scanLoop w st ps).file_ids.map Prod.fst ↔
      x ∈ st.file_ids.map Prod.fst ∨ x ∈ ps := by
  induction ps generalizing st with
  | nil => simp [scanLoop]
  | cons p ps ih =>
    simp only [scanLoop]
    rw [ih]
    obtain ⟨v, hv⟩ := scanStep_file_ids w st p
    rw [hv, keys_mapInsert]
    simp [List.mem_cons]
    tauto

/-- When every open succeeds, every handle stored by the scan loop is
non-negative (fresh positive ids only). -/
theorem scanLoop_handles_nonneg (w : World) (ps : List String) (st : ScanState)
    (hok : ∀ p ∈ ps, (w.fs p).isSome = true)
    (hctr : 1 ≤ st.ctr) (hvals : ∀ kv ∈ st.file_ids, 0 ≤ kv.2) :
    ∀ kv ∈ (scanLoop w st ps).file_ids, 0 ≤ kv.2 := by
  induction ps generalizing st with
  | nil => exact hvals
  | cons p ps ih =>
    simp only [scanLoop]
    obtain ⟨fd, hfd⟩ := Option.isSome_iff_exists.mp (hok p (List.mem_cons_self p ps))
    have hv : (visitObjects w.garbage st.op_data (st.ctr + 1) fd.objects).ctr ≥ st.ctr + 1 :=
      visitObjects_ctr_le _ _ _ _
    apply ih _ (fun q hq => hok q (List.mem_cons_of_mem _ hq))
    · have hc : (scanStep w st p).ctr =
          (visitObjects w.garbage st.op_data (st.ctr + 1) fd.objects).ctr := by
        simp [scanStep, hfd]
      rw [hc]
      omega
    · intro kv hkv
      have hfi : (scanStep w st p).file_ids = mapInsert st.file_ids p st.ctr := by
        simp [scanStep, hfd]
      rw [hfi] at hkv
      rcases mem_mapInsert _ _ _ kv hkv with h | h
      · rw [h]
        simp only []
        omega
      · exact hvals kv h

/-- The scan loop closes no file handle. -/
theorem scanLoop_no_fclose (w : World) (ps : List String) (st : ScanState)
    (h : ∀ e ∈ st.scanEvents, e.isFclose = false) :
    ∀ e ∈ (scanLoop w st ps).scanEvents, e.isFclose = false := by
  induction ps generalizing st with
  | nil => exact h
  | cons p ps ih =>
    simp only [scanLoop]
    apply ih
    obtain ⟨ex, hex, hno⟩ := scanStep_scanEvents w st p
    intro e he
    rw [hex] at he
    rcases List.mem_append.mp he with h1 | h1
    · exact h e h1
    · exact hno e h1

/-- With the literal configuration of main, the fapl construction aborts at
the first checked property-list call whose status is negative, with the
diagnostic of that call, and otherwise yields the core fapl carrying the
library default cache parameters unchanged (the request is dead). -/
theorem buildFapl_mainConfig (d : CacheParams) (cs gs ss : Int) :
    buildFapl mainConfig d cs gs ss =
      if cs < 0 then Except.error (["Error: H5Pset_fapl_core"], 1)
      else if gs < 0 then Except.error (["Error: H5Pget_cache"], 1)
      else if ss < 0 then Except.error (["Error: H5Pset_cache"], 1)
      else Except.ok { isDefault := false, in_memory := true
                     , coll_metadata := none, cache := d } := by
  by_cases h1 : cs < 0
  · simp [buildFapl, mainConfig, H5Pset_fapl_core, H5Pcreate_file_access, h1]
  · by_cases h2 : gs < 0
    · simp [buildFapl, mainConfig, set_rawdata_cache, H5Pset_fapl_core,
        H5Pcreate_file_access, H5Pget_cache, h1, h2]
    · by_cases h4 : ss < 0
      · simp [buildFapl, mainConfig, set_rawdata_cache, H5Pset_fapl_core,
          H5Pcreate_file_access, H5Pget_cache, H5Pset_cache, h1, h2, h4]
      · simp [buildFapl, mainConfig, set_rawdata_cache, H5Pset_fapl_core,
          H5Pcreate_file_access, H5Pget_cache, H5Pset_cache, h1, h2, h4]

/-- A proper run is an abort at the first failing checked configuration
call, or the full measurement phase under the core fapl. -/
theorem mainRun_eq (w : World) :
    mainRun w 3 =
      if w.pset_fapl_core_status < 0 then abortRun "Error: H5Pset_fapl_core"
      else if w.pget_cache_status < 0 then abortRun "Error: H5Pget_cache"
      else if w.pset_cache_status < 0 then abortRun "Error: H5Pset_cache"
      else scanPhase w { isDefault := false, in_memory := true
                       , coll_metadata := none, cache := w.defaults } := by
  have h3 : ¬ ((3 : Nat) ≠ 3) := fun h => h rfl
  simp only [mainRun, if_neg h3, buildFapl_mainConfig]
  by_cases h1 : w.pset_fapl_core_status < 0
  · rw [if_pos h1, if_pos h1]
    rfl
  · rw [if_neg h1, if_neg h1]
    by_cases h2 : w.pget_cache_status < 0
    · rw [if_pos h2, if_pos h2]
      rfl
    · rw [if_neg h2, if_neg h2]
      by_cases h4 : w.pset_cache_status < 0
      · rw [if_pos h4, if_pos h4]
        rfl
      · rw [if_neg h4, if_neg h4]

/-- When the configuration phase succeeds, the run is the measurement phase
under the core fapl. -/
theorem mainRun_configOk (w : World) (hcfg : ConfigOk w) :
    mainRun w 3 = scanPhase w
      { isDefault := false, in_memory := true, coll_metadata := none
      , cache := w.defaults } := by
  obtain ⟨h1, h2, h4⟩ := hcfg
  rw [mainRun_eq]
  rw [if_neg (by omega), if_neg (by omega), if_neg (by omega)]

/-- One scan step does not depend on the H5Ovisit status oracle: the status
is assigned to err and never read. -/
theorem scanStep_visitStatus (inf : Option (List String)) (fs : String → Option FileData)
    (al : Nat → H5_alloc_stats_t) (v1 v2 : String → Int) (g : Nat) (df : CacheParams)
    (cs gs ss : Int) (st : ScanState) (p : String) :
    scanStep ⟨inf, fs, al, v1, g, df, cs, gs, ss⟩ st p =
      scanStep ⟨inf, fs, al, v2, g, df, cs, gs, ss⟩ st p := by
  cases hfs : fs p <;> simp [scanStep, hfs]

/-- The scan loop does not depend on the H5Ovisit status oracle. -/
theorem scanLoop_visitStatus (inf : Option (List String)) (fs : String → Option FileData)
    (al : Nat → H5_alloc_stats_t) (v1 v2 : String → Int) (g : Nat) (df : CacheParams)
    (cs gs ss : Int) (ps : List String) (st : ScanState) :
    scanLoop ⟨inf, fs, al, v1, g, df, cs, gs, ss⟩ st ps =
      scanLoop ⟨inf, fs, al, v2, g, df, cs, gs, ss⟩ st ps := by
  induction ps generalizing st with
  | nil => rfl
  | cons p ps ih =>
    show scanLoop ⟨inf, fs, al, v1, g, df, cs, gs, ss⟩
        (scanStep ⟨inf, fs, al, v1, g, df, cs, gs, ss⟩ st p) ps =
      scanLoop ⟨inf, fs, al, v2, g, df, cs, gs, ss⟩
        (scanStep ⟨inf, fs, al, v2, g, df, cs, gs, ss⟩ st p) ps
    rw [scanStep_visitStatus inf fs al v1 v2 g df cs gs ss st p]
    exact ih _

/-- The measurement phase does not depend on the H5Ovisit status oracle. -/
theorem scanPhase_visitStatus (inf : Option (List String)) (fs : String → Option FileData)
    (al : Nat → H5_alloc_stats_t) (v1 v2 : String → Int) (g : Nat) (df : CacheParams)
    (cs gs ss : Int) (fapl : Fapl) :
    scanPhase ⟨inf, fs, al, v1, g, df, cs, gs, ss⟩ fapl =
      scanPhase ⟨inf, fs, al, v2, g, df, cs, gs, ss⟩ fapl := by
  simp only [scanPhase]
  rw [scanLoop_visitStatus inf fs al v1 v2 g df cs gs ss]
  have hi : initState ⟨inf, fs, al, v1, g, df, cs, gs, ss⟩ =
      initState ⟨inf, fs, al, v2, g, df, cs, gs, ss⟩ := rfl
  have hl : linesOf ⟨inf, fs, al, v1, g, df, cs, gs, ss⟩ =
      linesOf ⟨inf, fs, al, v2, g, df, cs, gs, ss⟩ := rfl
  rw [hi, hl]

/-- The whole run does not depend on the H5Ovisit status oracle. -/
theorem mainRun_visitStatus (inf : Option (List String)) (fs : String → Option FileData)
    (al : Nat → H5_alloc_stats_t) (v1 v2 : String → Int) (g : Nat) (df : CacheParams)
    (cs gs ss : Int) (argc : Nat) :
    mainRun ⟨inf, fs, al, v1, g, df, cs, gs, ss⟩ argc =
      mainRun ⟨inf, fs, al, v2, g, df, cs, gs, ss⟩ argc := by
  by_cases hargc : argc = 3
  · subst hargc
    rw [mainRun_eq, mainRun_eq]
    dsimp only
    by_cases h1 : cs < 0
    · rw [if_pos h1, if_pos h1]
    · rw [if_neg h1, if_neg h1]
      by_cases h2 : gs < 0
      · rw [if_pos h2, if_pos h2]
      · rw [if_neg h2, if_neg h2]
        by_cases h4 : ss < 0
        · rw [if_pos h4, if_pos h4]
        · rw [if_neg h4, if_neg h4]
          exact scanPhase_visitStatus inf fs al v1 v2 g df cs gs ss _
  · simp only [mainRun, if_pos hargc]

/-- The emission count of a proper run whose configuration succeeded: one
row per input path plus the baseline row. -/
theorem mainRun_rowsMeta_len (w : World) (hcfg : ConfigOk w) :
    (mainRun w 3).rowsMeta.length = (linesOf w).length + 1 := by
  rw [mainRun_configOk w hcfg]
  simp only [scanPhase]
  rw [scanLoop_rowsMeta_len]
  simp [initState]
  omega

/-- C1: the claim states that with in-memory buffering and chunk caching
enabled the configuration finally submitted to the library keeps every
cache field at the library default except byte-capacity, which becomes the
requested 64 MiB.  The code is wrong: set_rawdata_cache passes its own
rdcc_nslots, rdcc_nbytes and w0 parameters by address to H5Pget_cache,
which overwrites all of them with the current (default) values before
H5Pset_cache resubmits them, so the submitted configuration equals the
defaults in every field, byte-capacity included; with the HDF5 default
cache the submitted byte-capacity is 1048576, not the requested 67108864. -/
theorem c1_cache_request_ignored :
    (∀ (d : CacheParams) (nslots nbytes : Nat) (w0 : Rat) (gs ss : Int)
      (f : Fapl) (e : Int),
      set_rawdata_cache (H5Pset_fapl_core (H5Pcreate_file_access d) 0).1
          nslots nbytes w0 gs ss = Except.ok (f, e) →
      f.cache = d) ∧
    buildFapl mainConfig hdf5DefaultCache 0 0 0 =
      Except.ok { isDefault := false, in_memory := true, coll_metadata := none
                , cache := hdf5DefaultCache } ∧
    hdf5DefaultCache.rdcc_nbytes = 1048576 ∧
    mainConfig.raw_chunk_cache_size = 67108864 ∧
    (1048576 : Nat) ≠ 67108864 := by
  refine ⟨?_, rfl, rfl, rfl, by decide⟩
  intro d nslots nbytes w0 gs ss f e h
  simp only [set_rawdata_cache, H5Pget_cache, H5Pset_cache, H5Pset_fapl_core,
    H5Pcreate_file_access] at h
  by_cases h1 : gs < 0
  · rw [if_pos h1] at h
    exact absurd h (by simp)
  · rw [if_neg h1] at h
    by_cases h2 : ss < 0
    · rw [if_pos h2] at h
      exact absurd h (by simp)
    · rw [if_neg h2] at h
      simp at h
      rw [← h.1]

/-- C1 witness: a concrete successful submission with the 64 MiB request
still carries the defaults unchanged. -/
theorem c1_witness :
    ({ isDefault := false, in_memory := true, coll_metadata := none
     , cache := hdf5DefaultCache } : Fapl).cache = hdf5DefaultCache :=
  c1_cache_request_ignored.1 hdf5DefaultCache 521 67108864 1 0 0
    { isDefault := false, in_memory := true, coll_metadata := none
    , cache := hdf5DefaultCache } 0 rfl

/-- C2: executed on an input list holding one path whose open fails, the
code, contrary to the claim, still emits a data row for that path (two
rows: the baseline plus one for the failed path) and exits 1 only later,
with a diagnostic naming H5Fclose rather than the failing open. -/
theorem c2_unchecked_open :
    (mainRun wC2 3).rowsMeta.length = 2 ∧
    (mainRun wC2 3).console = ["Error: H5Fclose"] ∧
    (mainRun wC2 3).exitCode = 1 :=
  ⟨rfl, rfl, rfl⟩

/-- C3 (amended): the accumulated file size is non-decreasing across the
emissions of every run; and whenever every open succeeds the emitted trace
equals the exact running sums of the reported file sizes, starting from 0
at the baseline emission. -/
theorem c3_acc_monotone_and_exact (w : World) :
    List.Chain' (fun x y : Nat => x ≤ y) (mainRun w 3).accTrace ∧
    (ConfigOk w → (∀ p ∈ linesOf w, (w.fs p).isSome = true) →
      (mainRun w 3).accTrace = expectedTrace w 0 (linesOf w)) := by
  constructor
  · rw [mainRun_eq]
    split
    · simp [abortRun]
    · split
      · simp [abortRun]
      · split
        · simp [abortRun]
        · simp only [scanPhase]
          apply scanLoop_accTrace_chain
          · rfl
          · exact List.chain'_singleton 0
  · intro hcfg hok
    rw [mainRun_configOk w hcfg]
    simp only [scanPhase]
    rw [scanLoop_accTrace_exact w (linesOf w) (initState w) hok]
    rfl

/-- C3 counterexample: on wC3cx (first file 1000 bytes, second open fails)
the final emission reports 2000 while the byte sizes of the files opened
so far sum to 1000: the stale curr_file_size was re-added, refuting the
exact-sum part of the claim as stated. -/
theorem c3_counterexample :
    (mainRun wC3cx 3).accTrace = [0, 1000, 2000] ∧
    openedSum wC3cx (linesOf wC3cx) = 1000 ∧
    ¬ (mainRun wC3cx 3).accTrace.getLast? =
        some (openedSum wC3cx (linesOf wC3cx)) :=
  ⟨rfl, rfl, by decide⟩

/-- C3 witness: the amended theorem applied to the all-success world wGood
(files of 1000 and 2500 bytes), the open hypothesis discharged by
computation: the trace is the exact running sums 0, 1000, 3500. -/
theorem c3_witness :
    (mainRun wGood 3).accTrace = expectedTrace wGood 0 (linesOf wGood) :=
  (c3_acc_monotone_and_exact wGood).2 (by decide) (by decide)

/-- C4 (amended): every proper run emits one data row per input path plus
the baseline row, whether or not the open of the path succeeds; for an
empty input list exactly one row (the baseline) is emitted and the
returned handle map is empty. -/
theorem c4_rows_and_empty_list (w : World) (hcfg : ConfigOk w) :
    (mainRun w 3).rowsMeta.length = (linesOf w).length + 1 ∧
    (linesOf w = [] →
      (mainRun w 3).rowsMeta.length = 1 ∧ (mainRun w 3).file_ids = []) := by
  constructor
  · exact mainRun_rowsMeta_len w hcfg
  · intro h
    constructor
    · rw [mainRun_rowsMeta_len w hcfg, h]
      rfl
    · rw [mainRun_configOk w hcfg]
      simp only [scanPhase]
      rw [h]
      rfl

/-- C4 counterexample: on wC2 the single open fails, so the number of files
successfully scanned is 0, yet two rows are emitted, refuting the claimed
count (successfully scanned + 1). -/
theorem c4_counterexample :
    (mainRun wC2 3).rowsMeta.length = 2 ∧
    scannedCount wC2 = 0 ∧
    (mainRun wC2 3).rowsMeta.length ≠ scannedCount wC2 + 1 :=
  ⟨rfl, rfl, by decide⟩

/-- C4 witness: the amended theorem at the empty-list world, the emptiness
hypothesis discharged by computation. -/
theorem c4_witness :
    (mainRun wEmptyList 3).rowsMeta.length = 1 ∧
    (mainRun wEmptyList 3).file_ids = [] :=
  (c4_rows_and_empty_list wEmptyList (by decide)).2 rfl

/-- C5: a visited dataset whose first dimension size is zero is opened and
immediately released during the visit (dataset open, dataspace open and
close, then dataset close, touching nothing else), and the retained-handle
bookkeeping op_data.dset_ids is empty after every run: the visitor never
appends to it, so such a dataset is never present in it. -/
theorem c5_empty_dataset_released :
    (∀ (o : H5Object) (d : OpData) (c : Int) (g : Nat),
      o.otype = H5OType.dataset → o.dims.head? = some 0 →
      op_func o d c g =
        { op_data := d
        , events := [Event.dopen c, Event.sopen (c + 1), Event.sclose (c + 1),
            Event.dclose c]
        , status := 0, ctr := c + 2 }) ∧
    (∀ (w : World) (argc : Nat), (mainRun w argc).op_data.dset_ids = []) := by
  constructor
  · intro o d c g ht hd
    have hcases : ∃ t, o.dims = 0 :: t := by
      cases ho : o.dims with
      | nil =>
        rw [ho] at hd
        simp at hd
      | cons a t =>
        rw [ho] at hd
        simp at hd
        subst hd
        exact ⟨t, rfl⟩
    obtain ⟨t, hdims⟩ := hcases
    simp [op_func, ht, hdims]
  · intro w argc
    by_cases hargc : argc = 3
    · subst hargc
      rw [mainRun_eq]
      split
      · rfl
      · split
        · rfl
        · split
          · rfl
          · simp only [scanPhase]
            rw [scanLoop_op_data]
            rfl
    · simp [mainRun, hargc]

/-- C5 witness: the theorem applied to a concrete empty dataset, both
hypotheses discharged by computation. -/
theorem c5_witness :
    op_func { name := "d0", otype := H5OType.dataset, dims := [0, 3] }
        { dset_ids := [] } 7 9 =
      { op_data := { dset_ids := [] }
      , events := [Event.dopen 7, Event.sopen 8, Event.sclose 8, Event.dclose 7]
      , status := 0, ctr := 9 } :=
  c5_empty_dataset_released.1 _ _ _ _ rfl rfl

/-- C6 (amended): each failure the code actually checks is fatal with a
diagnostic naming the failing operation, but the diagnostic is written to
standard output (the error macro prints to std::cout), not standard error,
and only the checked operations are covered: H5Pset_fapl_core, H5Pget_cache
and H5Pset_cache during configuration, and H5Fclose during the close phase.
Every proper run either prints nothing and exits 0 or prints exactly one
such Error line and exits 1; a negative status of a checked configuration
call is reported with that call name and exit 1.  Failures of input-list or
output-stream access and of the unchecked collaborator calls (file open,
file-size query, object visitation, allocation-stats query) produce no
diagnostic and do not by themselves terminate the process. -/
theorem c6_checked_failures_fatal (w : World) :
    (((mainRun w 3).console = [] ∧ (mainRun w 3).exitCode = 0) ∨
     ((mainRun w 3).exitCode = 1 ∧
       ((mainRun w 3).console = ["Error: H5Pset_fapl_core"] ∨
        (mainRun w 3).console = ["Error: H5Pget_cache"] ∨
        (mainRun w 3).console = ["Error: H5Pset_cache"] ∨
        (mainRun w 3).console = ["Error: H5Fclose"]))) ∧
    (w.pset_fapl_core_status < 0 →
      (mainRun w 3).console = ["Error: H5Pset_fapl_core"] ∧
      (mainRun w 3).exitCode = 1) ∧
    (0 ≤ w.pset_fapl_core_status → w.pget_cache_status < 0 →
      (mainRun w 3).console = ["Error: H5Pget_cache"] ∧
      (mainRun w 3).exitCode = 1) ∧
    (0 ≤ w.pset_fapl_core_status → 0 ≤ w.pget_cache_status →
      w.pset_cache_status < 0 →
      (mainRun w 3).console = ["Error: H5Pset_cache"] ∧
      (mainRun w 3).exitCode = 1) := by
  refine ⟨?_, ?_, ?_, ?_⟩
  · rw [mainRun_eq]
    by_cases h1 : w.pset_fapl_core_status < 0
    · rw [if_pos h1]
      exact Or.inr ⟨rfl, Or.inl rfl⟩
    · rw [if_neg h1]
      by_cases h2 : w.pget_cache_status < 0
      · rw [if_pos h2]
        exact Or.inr ⟨rfl, Or.inr (Or.inl rfl)⟩
      · rw [if_neg h2]
        by_cases h4 : w.pset_cache_status < 0
        · rw [if_pos h4]
          exact Or.inr ⟨rfl, Or.inr (Or.inr (Or.inl rfl))⟩
        · rw [if_neg h4]
          simp only [scanPhase]
          rcases closeLoop_console (scanLoop w (initState w) (linesOf w)).file_ids with
            h | h
          · exact Or.inl ⟨h.1, h.2⟩
          · exact Or.inr ⟨h.2, Or.inr (Or.inr (Or.inr h.1))⟩
  · intro h1
    rw [mainRun_eq, if_pos h1]
    exact ⟨rfl, rfl⟩
  · intro h1 h2
    rw [mainRun_eq, if_neg (by omega), if_pos h2]
    exact ⟨rfl, rfl⟩
  · intro h1 h2 h4
    rw [mainRun_eq, if_neg (by omega), if_neg (by omega), if_pos h4]
    exact ⟨rfl, rfl⟩

/-- C6 counterexample: with an input list that cannot be accessed, the run
prints no diagnostic and exits 0, refuting the claim that every input-list
access failure is reported and terminates with a non-zero status. -/
theorem c6_counterexample :
    wBadList.infile = none ∧
    (mainRun wBadList 3).console = [] ∧
    (mainRun wBadList 3).exitCode = 0 :=
  ⟨rfl, rfl, rfl⟩

/-- C6 witness: the amended theorem at a world whose H5Pset_fapl_core call
fails, the status hypothesis discharged by computation: the run prints that
call name and exits 1. -/
theorem c6_witness :
    (mainRun wCfgFail 3).console = ["Error: H5Pset_fapl_core"] ∧
    (mainRun wCfgFail 3).exitCode = 1 :=
  (c6_checked_failures_fatal wCfgFail).2.1 (by decide)

/-- C7 (amended): the retained map has pairwise-distinct keys and its key
set is exactly the set of input paths (exactly one handle per path); the
scan phase closes no file handle; and when every open succeeds the close
phase closes exactly the retained handles, in map order, and the run exits
0.  When an open failed, the close phase aborts with exit 1 at the first
invalid handle and the retained handles after it are never closed. -/
theorem c7_retained_handles (w : World) :
    ((mainRun w 3).file_ids.map Prod.fst).Nodup ∧
    (ConfigOk w →
      ∀ p, p ∈ (mainRun w 3).file_ids.map Prod.fst ↔ p ∈ linesOf w) ∧
    (∀ e ∈ (mainRun w 3).scanEvents, e.isFclose = false) ∧
    (ConfigOk w → (∀ p ∈ linesOf w, (w.fs p).isSome = true) →
      (mainRun w 3).closeEvents =
        (mainRun w 3).file_ids.map (fun kv => Event.fclose kv.2) ∧
      (mainRun w 3).exitCode = 0) := by
  refine ⟨?_, ?_, ?_, ?_⟩
  · rw [mainRun_eq]
    split
    · simp [abortRun]
    · split
      · simp [abortRun]
      · split
        · simp [abortRun]
        · simp only [scanPhase]
          apply sortedKeys_nodup
          apply scanLoop_sortedKeys
          exact List.Pairwise.nil
  · intro hcfg p
    rw [mainRun_configOk w hcfg]
    simp only [scanPhase]
    rw [scanLoop_keys]
    simp [initState]
  · rw [mainRun_eq]
    split
    · simp [abortRun]
    · split
      · simp [abortRun]
      · split
        · simp [abortRun]
        · simp only [scanPhase]
          apply scanLoop_no_fclose
          intro e he
          simp [initState] at he
  · intro hcfg hok
    rw [mainRun_configOk w hcfg]
    simp only [scanPhase]
    have hvals : ∀ kv ∈ (scanLoop w (initState w) (linesOf w)).file_ids, 0 ≤ kv.2 := by
      apply scanLoop_handles_nonneg w (linesOf w) (initState w) hok
      · show (1 : Int) ≤ 1
        omega
      · intro kv hkv
        simp [initState] at hkv
    rw [closeLoop_all_valid _ hvals]
    exact ⟨rfl, rfl⟩

/-- C7 counterexample: on wC7 the handle of "b" is retained (value 1) but
the close phase exits at the invalid handle of "a" before closing it, so a
retained handle is never closed, refuting the exhaustive-close part of the
claim as stated. -/
theorem c7_counterexample :
    (mainRun wC7 3).file_ids = [("a", -1), ("b", 1)] ∧
    (mainRun wC7 3).closeEvents = [] ∧
    (mainRun wC7 3).exitCode = 1 :=
  ⟨rfl, rfl, rfl⟩

/-- C7 witness: the amended theorem at the all-success world, the open
hypothesis discharged by computation. -/
theorem c7_witness :
    (mainRun wGood 3).closeEvents =
      (mainRun wGood 3).file_ids.map (fun kv => Event.fclose kv.2) ∧
    (mainRun wGood 3).exitCode = 0 :=
  (c7_retained_handles wGood).2.2.2 (by decide) (by decide)

/-- C8: in every proper run the output stream receives the fixed header
line first, exactly once, and then exactly one line per emitted row, each
being the four values as raw decimal integers separated by commas and
terminated by a line break, with no other formatting. -/
theorem c8_output_format (w : World) :
    (mainRun w 3).outLines =
      "total_alloc_bytes,curr_alloc_bytes,peak_alloc_bytes,acc_file_size\n" ::
        (mainRun w 3).rowsMeta.map (fun r =>
          toString r.1.total_alloc_bytes ++ "," ++ toString r.1.curr_alloc_bytes ++ ","
            ++ toString r.1.peak_alloc_bytes ++ "," ++ toString r.2 ++ "\n") := by
  rw [mainRun_eq]
  split
  · rfl
  · split
    · rfl
    · split
      · rfl
      · simp only [scanPhase]
        rw [scanLoop_outLines w (linesOf w) (initState w) rfl]
        rfl

/-- C8 witness: the format theorem at the all-success world. -/
theorem c8_witness :
    (mainRun wGood 3).outLines =
      "total_alloc_bytes,curr_alloc_bytes,peak_alloc_bytes,acc_file_size\n" ::
        (mainRun wGood 3).rowsMeta.map (fun r =>
          toString r.1.total_alloc_bytes ++ "," ++ toString r.1.curr_alloc_bytes ++ ","
            ++ toString r.1.peak_alloc_bytes ++ "," ++ toString r.2 ++ "\n") :=
  c8_output_format wGood

/-- C9: the visitor callback returns success 0 for every visited object;
the status returned by object visitation is never inspected by the caller:
the whole run result is unchanged under any change of the visitation
status oracle; and the emission count of a run is one row per input path
plus the baseline regardless, so no traversal failure aborts the scan,
suppresses a per-file emission, or causes a non-zero exit. -/
theorem c9_visit_status_ignored :
    (∀ (o : H5Object) (d : OpData) (c : Int) (g : Nat), (op_func o d c g).status = 0) ∧
    (∀ (inf : Option (List String)) (fs : String → Option FileData)
      (al : Nat → H5_alloc_stats_t) (v1 v2 : String → Int) (g : Nat) (df : CacheParams)
      (cs gs ss : Int) (argc : Nat),
      mainRun ⟨inf, fs, al, v1, g, df, cs, gs, ss⟩ argc =
        mainRun ⟨inf, fs, al, v2, g, df, cs, gs, ss⟩ argc) ∧
    (∀ w : World, ConfigOk w →
      (mainRun w 3).rowsMeta.length = (linesOf w).length + 1) :=
  ⟨op_func_status, mainRun_visitStatus, mainRun_rowsMeta_len⟩

/-- C9 witness: the callback status at a concrete visited object. -/
theorem c9_witness :
    (op_func { name := "g", otype := H5OType.group, dims := [] }
      { dset_ids := [] } 4 0).status = 0 :=
  c9_visit_status_ignored.1 { name := "g", otype := H5OType.group, dims := [] }
    { dset_ids := [] } 4 0

/-- C10: the access strategy is fixed by compile-time literals: for any
library defaults the constructed fapl is the in-memory core one (not
H5P_DEFAULT, no collective-metadata setting), the configuration constants
are in-memory buffering with chunk caching and a requested 64 MiB cache,
and the fapl of every run is determined by those constants alone, so no
command-line input can select the direct-file or non-POSIX branches. -/
theorem c10_strategy_fixed :
    (∀ (d : CacheParams) (cs gs ss : Int) (f : Fapl),
      buildFapl mainConfig d cs gs ss = Except.ok f →
      f.isDefault = false ∧ f.in_memory = true ∧ f.coll_metadata = none) ∧
    mainConfig.posix_open = true ∧ mainConfig.in_memory_io = true ∧
    mainConfig.chunk_caching = true ∧ mainConfig.raw_chunk_cache_size = 67108864 ∧
    (∀ (w : World) (argc : Nat),
      (mainRun w argc).fapl = none ∨
      ∃ f, buildFapl mainConfig w.defaults w.pset_fapl_core_status
          w.pget_cache_status w.pset_cache_status = Except.ok f ∧
        (mainRun w argc).fapl = some f) := by
  refine ⟨?_, rfl, rfl, rfl, rfl, ?_⟩
  · intro d cs gs ss f hok
    rw [buildFapl_mainConfig] at hok
    by_cases h1 : cs < 0
    · rw [if_pos h1] at hok
      exact absurd hok (by simp)
    · rw [if_neg h1] at hok
      by_cases h2 : gs < 0
      · rw [if_pos h2] at hok
        exact absurd hok (by simp)
      · rw [if_neg h2] at hok
        by_cases h4 : ss < 0
        · rw [if_pos h4] at hok
          exact absurd hok (by simp)
        · rw [if_neg h4] at hok
          simp at hok
          rw [← hok]
          exact ⟨rfl, rfl, rfl⟩
  · intro w argc
    by_cases hargc : argc = 3
    · subst hargc
      rw [mainRun_eq]
      by_cases h1 : w.pset_fapl_core_status < 0
      · rw [if_pos h1]
        exact Or.inl rfl
      · rw [if_neg h1]
        by_cases h2 : w.pget_cache_status < 0
        · rw [if_pos h2]
          exact Or.inl rfl
        · rw [if_neg h2]
          by_cases h4 : w.pset_cache_status < 0
          · rw [if_pos h4]
            exact Or.inl rfl
          · rw [if_neg h4]
            right
            refine ⟨{ isDefault := false, in_memory := true, coll_metadata := none
                    , cache := w.defaults }, ?_, rfl⟩
            rw [buildFapl_mainConfig, if_neg h1, if_neg h2, if_neg h4]
    · left
      simp [mainRun, hargc]

/-- C10 witness: the branch facts of the theorem applied at the concrete
default parameters with succeeding statuses, the construction hypothesis
discharged by computation. -/
theorem c10_witness :
    ({ isDefault := false, in_memory := true, coll_metadata := none
     , cache := hdf5DefaultCache } : Fapl).isDefault = false ∧
    ({ isDefault := false, in_memory := true, coll_metadata := none
     , cache := hdf5DefaultCache } : Fapl).in_memory = true ∧
    ({ isDefault := false, in_memory := true, coll_metadata := none
     , cache := hdf5DefaultCache } : Fapl).coll_metadata = none :=
  c10_strategy_fixed.1 hdf5DefaultCache 0 0 0
    { isDefault := false, in_memory := true, coll_metadata := none
    , cache := hdf5DefaultCache } rfl

end EstimateDataVolume
